import Mathlib

/-!
# Token-bucket rate limiter: shallow embedding and verification

This file embeds the `TokenBucketRateLimiter` and the aggregate-statistics
part of the `TrafficSimulator` from `src/vicky.py` into Lean and proves
properties of the embedding.

Modelling conventions:
* Python `float` timestamps and token counts are modelled as `ℚ` (the
  algorithm uses only `+`, `-`, `*`, `min` and comparisons, all exact).
* `time.time()` is modelled by passing the clock reading as an explicit
  argument: each call to `allow_request` takes exactly one reading `now`,
  matching the single `now = time.time()` read inside `_refill`.
* The `threading.Lock` held for the whole refill-and-consume sequence makes
  each `allow_request` call atomic, so a concurrent execution is modelled as
  a sequence of calls (some serialization of the concurrent invocations),
  i.e. state passing over a list of clock readings.
* A raised Python exception is modelled as `Except.error`.
-/

/-- State of `TokenBucketRateLimiter` (fields of the Python object). -/
structure TokenBucketRateLimiter where
  max_tokens : ℚ
  refill_rate : ℚ
  available_tokens : ℚ
  last_refill_timestamp : ℚ
  deriving Repr, DecidableEq

namespace TokenBucketRateLimiter

/-- `TokenBucketRateLimiter.__init__` (src/vicky.py lines 12-22): stores the
parameters unchecked, starts the bucket full, records the creation-time clock
reading.  The Python constructor performs no validation and cannot raise. -/
def init (max_tokens refill_rate now : ℚ) : TokenBucketRateLimiter :=
  { max_tokens := max_tokens
    refill_rate := refill_rate
    available_tokens := max_tokens
    last_refill_timestamp := now }

/-- `TokenBucketRateLimiter._refill` (src/vicky.py lines 24-31), with the
single `time.time()` reading passed in as `now`. -/
def refill (s : TokenBucketRateLimiter) (now : ℚ) : TokenBucketRateLimiter :=
  let elapsed := now - s.last_refill_timestamp
  let refill_amount := elapsed * s.refill_rate
  if refill_amount > 0 then
    { s with
      available_tokens := min s.max_tokens (s.available_tokens + refill_amount)
      last_refill_timestamp := now }
  else s

/-- `TokenBucketRateLimiter.allow_request` (src/vicky.py lines 33-45):
refill, then consume one token if at least one is available.  Returns the
boolean result together with the updated state. -/
def allow_request (s : TokenBucketRateLimiter) (now : ℚ) :
    Bool × TokenBucketRateLimiter :=
  let s' := s.refill now
  if s'.available_tokens ≥ 1 then
    (true, { s' with available_tokens := s'.available_tokens - 1 })
  else
    (false, s')

/-- Run a sequence of `allow_request` calls (one clock reading per call),
returning the number of admitted requests and the final state.  This is the
sequential view of any number of lock-serialized callers. -/
def runCount (s : TokenBucketRateLimiter) :
    List ℚ → ℕ × TokenBucketRateLimiter
  | [] => (0, s)
  | t :: ts =>
    let r := s.allow_request t
    let p := runCount r.2 ts
    ((if r.1 then 1 else 0) + p.1, p.2)

/-- The bucket invariant stated by the spec's data model:
`0 <= availableTokens <= capacity`. -/
def Inv (s : TokenBucketRateLimiter) : Prop :=
  0 ≤ s.available_tokens ∧ s.available_tokens ≤ s.max_tokens

instance (s : TokenBucketRateLimiter) : Decidable s.Inv := by
  unfold Inv; infer_instance

end TokenBucketRateLimiter

/-- Specification-side description of `allowRequest` transcribed from the
spec's step-by-step algorithm (§4.1 steps 1-5): one clock reading `now`;
`elapsed = now - lastRefillTime`; `refillAmount = elapsed * refillRate`;
if `refillAmount > 0` clamp-add and stamp `lastRefillTime := now`; admit and
subtract 1 iff the post-refill token count is at least 1. -/
def allowRequestSpec (s : TokenBucketRateLimiter) (now : ℚ) :
    Bool × TokenBucketRateLimiter :=
  let elapsed := now - s.last_refill_timestamp
  let refillAmount := elapsed * s.refill_rate
  let postTokens :=
    if refillAmount > 0 then
      min s.max_tokens (s.available_tokens + refillAmount)
    else s.available_tokens
  let postTime :=
    if refillAmount > 0 then now else s.last_refill_timestamp
  if postTokens ≥ 1 then
    (true,
      { max_tokens := s.max_tokens
        refill_rate := s.refill_rate
        available_tokens := postTokens - 1
        last_refill_timestamp := postTime })
  else
    (false,
      { max_tokens := s.max_tokens
        refill_rate := s.refill_rate
        available_tokens := postTokens
        last_refill_timestamp := postTime })

/-- Specification-side constructor transcribed from the spec (§4.1, §7):
construction fails (`none`, standing for a raised `InvalidConfiguration`)
when `capacity <= 0`, and otherwise produces the instance. -/
def initSpec (capacity refillRate now : ℚ) : Option TokenBucketRateLimiter :=
  if capacity ≤ 0 then none
  else some (TokenBucketRateLimiter.init capacity refillRate now)

/-- Aggregate counters of `TrafficSimulator` (src/vicky.py lines 65-68). -/
structure SimStats where
  allowed : ℕ
  blocked : ℕ
  latencies : List ℚ
  deriving Repr, DecidableEq

namespace SimStats

/-- The locked tally block of `TrafficSimulator.request_worker`
(src/vicky.py lines 84-89): increment `allowed` or `blocked` according to the
call's result, then append the call's latency. -/
def record (st : SimStats) (wasAllowed : Bool) (latency : ℚ) : SimStats :=
  if wasAllowed then
    { st with allowed := st.allowed + 1, latencies := st.latencies ++ [latency] }
  else
    { st with blocked := st.blocked + 1, latencies := st.latencies ++ [latency] }

end SimStats

/-- One iteration of `TrafficSimulator.request_worker` (src/vicky.py lines
77-89): call `allow_request` with the clock reading `tCall` taken at the
start of the call, measure latency against the reading `tRet` taken after
it, and tally the outcome under the aggregate lock. -/
def request_worker_iter (ls : TokenBucketRateLimiter) (st : SimStats)
    (tCall tRet : ℚ) : TokenBucketRateLimiter × SimStats :=
  let r := ls.allow_request tCall
  (r.2, st.record r.1 (tRet - tCall))

/-- A worker loop: fold `request_worker_iter` over a list of
(call-time, return-time) clock reading pairs. -/
def runWorkerIters (ls : TokenBucketRateLimiter) (st : SimStats) :
    List (ℚ × ℚ) → TokenBucketRateLimiter × SimStats
  | [] => (ls, st)
  | p :: ps =>
    let r := request_worker_iter ls st p.1 p.2
    runWorkerIters r.1 r.2 ps

/-- The latency-statistics computation of `TrafficSimulator.print_results`
(src/vicky.py lines 122-123): `sum(latencies) / len(latencies)` and
`max(latencies)`.  On an empty latency collection Python raises
`ZeroDivisionError` at the division (and `max` would raise `ValueError`),
modelled as `Except.error`; on a non-empty one it returns the pair
(average latency, max latency). -/
def printResultsStats (latencies : List ℚ) : Except String (ℚ × ℚ) :=
  match latencies with
  | [] => Except.error "ZeroDivisionError"
  | x :: xs => Except.ok ((x :: xs).sum / ((x :: xs).length : ℚ), xs.foldl max x)

namespace TokenBucketRateLimiter

/-- `_refill` preserves the bucket invariant. -/
theorem refill_inv (s : TokenBucketRateLimiter) (now : ℚ) (h : s.Inv) :
    (s.refill now).Inv := by
  obtain ⟨h0, hc⟩ := h
  simp only [refill, Inv]
  split_ifs with hr
  · exact ⟨le_min (by linarith) (by linarith), min_le_left _ _⟩
  · exact ⟨h0, hc⟩

/-- One step of `allow_request` preserves the bucket invariant. -/
theorem inv_allow_request (s : TokenBucketRateLimiter) (now : ℚ)
    (h : s.Inv) : (s.allow_request now).2.Inv := by
  have h' := refill_inv s now h
  obtain ⟨h0, hc⟩ := h'
  simp only [allow_request, Inv]
  split_ifs with ht
  · refine ⟨?_, ?_⟩ <;> · dsimp only; linarith
  · exact ⟨h0, hc⟩

/-- `_refill` never changes the capacity. -/
theorem max_tokens_refill (s : TokenBucketRateLimiter) (now : ℚ) :
    (s.refill now).max_tokens = s.max_tokens := by
  simp only [refill]; split_ifs <;> rfl

/-- `_refill` never changes the refill rate. -/
theorem rate_refill (s : TokenBucketRateLimiter) (now : ℚ) :
    (s.refill now).refill_rate = s.refill_rate := by
  simp only [refill]; split_ifs <;> rfl

/-- `allow_request` never changes the capacity. -/
theorem max_tokens_allow (s : TokenBucketRateLimiter) (now : ℚ) :
    (s.allow_request now).2.max_tokens = s.max_tokens := by
  simp only [allow_request]
  split_ifs <;> simpa using max_tokens_refill s now

/-- `allow_request` never changes the refill rate. -/
theorem rate_allow (s : TokenBucketRateLimiter) (now : ℚ) :
    (s.allow_request now).2.refill_rate = s.refill_rate := by
  simp only [allow_request]
  split_ifs <;> simpa using rate_refill s now

/-- When the computed refill amount is not positive, `_refill` is the
identity on the whole state. -/
theorem refill_of_nonpos (s : TokenBucketRateLimiter) (now : ℚ)
    (h : (now - s.last_refill_timestamp) * s.refill_rate ≤ 0) :
    s.refill now = s := by
  simp only [refill]
  rw [if_neg (not_lt.mpr h)]

/-- The two branches of `allow_request`, stated explicitly: admission. -/
theorem allow_request_true (s : TokenBucketRateLimiter) (now : ℚ)
    (h : (s.refill now).available_tokens ≥ 1) :
    s.allow_request now =
      (true, { s.refill now with
               available_tokens := (s.refill now).available_tokens - 1 }) := by
  simp only [allow_request]
  rw [if_pos h]

/-- The two branches of `allow_request`, stated explicitly: rejection. -/
theorem allow_request_false (s : TokenBucketRateLimiter) (now : ℚ)
    (h : ¬((s.refill now).available_tokens ≥ 1)) :
    s.allow_request now = (false, s.refill now) := by
  simp only [allow_request]
  rw [if_neg h]

/-- After a refill with reading `now`, the refill amount that a further call
with the same reading would compute is not positive. -/
theorem refill_amount_nonpos_after (s : TokenBucketRateLimiter) (now : ℚ) :
    (now - (s.refill now).last_refill_timestamp) * (s.refill now).refill_rate
      ≤ 0 := by
  simp only [refill]
  split_ifs with hr
  · simp
  · exact le_of_not_lt hr

/-- After any `allow_request` with reading `now`, the refill amount that a
further call with the same reading would compute is not positive. -/
theorem allow_amount_nonpos_after (s : TokenBucketRateLimiter) (now : ℚ) :
    (now - (s.allow_request now).2.last_refill_timestamp)
      * (s.allow_request now).2.refill_rate ≤ 0 := by
  simp only [allow_request]
  split_ifs <;> simpa using refill_amount_nonpos_after s now

/-- Over repeated calls that all carry the same clock reading `now`, once the
state can no longer refill at `now`, the number of admissions is bounded by
the current token count. -/
theorem count_le_tokens (n : ℕ) :
    ∀ (s : TokenBucketRateLimiter) (now : ℚ), 0 ≤ s.available_tokens →
      (now - s.last_refill_timestamp) * s.refill_rate ≤ 0 →
      ((s.runCount (List.replicate n now)).1 : ℚ) ≤ s.available_tokens := by
  induction n with
  | zero =>
    intro s now h0 _
    simpa [runCount] using h0
  | succ n ih =>
    intro s now h0 hra
    have hre : s.refill now = s := refill_of_nonpos s now hra
    simp only [List.replicate_succ, runCount]
    by_cases ht : (s.refill now).available_tokens ≥ 1
    · rw [allow_request_true s now ht]
      rw [hre] at ht ⊢
      have ih' := ih { s with available_tokens := s.available_tokens - 1 } now
        (by dsimp only; linarith) (by dsimp only; exact hra)
      dsimp only at ih' ⊢
      norm_num
      linarith
    · rw [allow_request_false s now ht]
      rw [hre] at ht ⊢
      have ih' := ih s now h0 hra
      dsimp only
      norm_num
      linarith

/-- Admissions in a burst of calls that all use one clock reading never
exceed the capacity (at most one refill can fire in such a burst). -/
theorem burst_count_le (s : TokenBucketRateLimiter) (now : ℚ) (h : s.Inv)
    (n : ℕ) :
    ((s.runCount (List.replicate n now)).1 : ℚ) ≤ s.max_tokens := by
  cases n with
  | zero =>
    simp only [List.replicate_zero, runCount, Nat.cast_zero]
    exact le_trans h.1 h.2
  | succ n =>
    have hIr : (s.refill now).Inv := refill_inv s now h
    have hcapr : (s.refill now).max_tokens = s.max_tokens :=
      max_tokens_refill s now
    simp only [List.replicate_succ, runCount]
    by_cases ht : (s.refill now).available_tokens ≥ 1
    · rw [allow_request_true s now ht]
      have hrest := count_le_tokens n
        { s.refill now with
          available_tokens := (s.refill now).available_tokens - 1 } now
        (by dsimp only; linarith)
        (by dsimp only
            simpa using refill_amount_nonpos_after s now)
      dsimp only at hrest ⊢
      norm_num
      have := hIr.2
      rw [hcapr] at this
      linarith
    · rw [allow_request_false s now ht]
      have hrest := count_le_tokens n (s.refill now) now hIr.1
        (refill_amount_nonpos_after s now)
      have := hIr.2
      rw [hcapr] at this
      norm_num
      linarith

/-- Any sequence of `allow_request` calls preserves the bucket invariant. -/
theorem inv_runCount (ts : List ℚ) :
    ∀ s : TokenBucketRateLimiter, s.Inv → ((s.runCount ts).2).Inv := by
  induction ts with
  | nil => intro s h; simpa [runCount] using h
  | cons t ts ih =>
    intro s h
    simp only [runCount]
    exact ih _ (inv_allow_request s t h)

/-- With a non-negative refill rate, `_refill` never moves the refill
timestamp backwards. -/
theorem last_le_refill (s : TokenBucketRateLimiter) (now : ℚ)
    (h : 0 ≤ s.refill_rate) :
    s.last_refill_timestamp ≤ (s.refill now).last_refill_timestamp := by
  simp only [refill]
  split_ifs with hr
  · dsimp only
    by_contra hlt
    push_neg at hlt
    have : (now - s.last_refill_timestamp) * s.refill_rate ≤ 0 :=
      mul_nonpos_iff.mpr (Or.inr ⟨by linarith, h⟩)
    linarith
  · exact le_refl _

/-- With a non-negative refill rate, one `allow_request` call never moves the
refill timestamp backwards. -/
theorem last_le_allow (s : TokenBucketRateLimiter) (now : ℚ)
    (h : 0 ≤ s.refill_rate) :
    s.last_refill_timestamp ≤ (s.allow_request now).2.last_refill_timestamp := by
  simp only [allow_request]
  split_ifs <;> simpa using last_le_refill s now h

/-- With a non-negative refill rate, the refill timestamp is monotonically
non-decreasing over any sequence of calls. -/
theorem last_le_runCount (ts : List ℚ) :
    ∀ s : TokenBucketRateLimiter, 0 ≤ s.refill_rate →
      s.last_refill_timestamp ≤ ((s.runCount ts).2).last_refill_timestamp := by
  induction ts with
  | nil => intro s _; simp [runCount]
  | cons t ts ih =>
    intro s h
    simp only [runCount]
    refine le_trans (last_le_allow s t h) (ih _ ?_)
    rw [rate_allow s t]
    exact h

/-- With refill rate 0 the refill amount vanishes, so `_refill` is the
identity. -/
theorem refill_of_rate_zero (s : TokenBucketRateLimiter) (now : ℚ)
    (h : s.refill_rate = 0) : s.refill now = s :=
  refill_of_nonpos s now (by rw [h, mul_zero])

/-- With refill rate 0 no call ever changes the refill timestamp. -/
theorem last_runCount_rate_zero (ts : List ℚ) :
    ∀ s : TokenBucketRateLimiter, s.refill_rate = 0 →
      ((s.runCount ts).2).last_refill_timestamp = s.last_refill_timestamp := by
  induction ts with
  | nil => intro s _; simp [runCount]
  | cons t ts ih =>
    intro s h
    simp only [runCount]
    have hstep : (s.allow_request t).2.last_refill_timestamp
        = s.last_refill_timestamp := by
      simp only [allow_request]
      rw [refill_of_rate_zero s t h]
      split_ifs <;> rfl
    rw [ih _ (by rw [rate_allow s t]; exact h), hstep]

/-- Zero-elapsed calls on a bucket holding a whole number `m` of tokens admit
exactly `min` of the number of calls and `m`. -/
theorem runCount_const_nat (K : ℕ) :
    ∀ (m : ℕ) (cap rate last : ℚ),
      ((⟨cap, rate, (m : ℚ), last⟩ :
          TokenBucketRateLimiter).runCount (List.replicate K last)).1
        = min K m := by
  induction K with
  | zero => intro m cap rate last; simp [runCount]
  | succ K ih =>
    intro m cap rate last
    have hre : (⟨cap, rate, (m : ℚ), last⟩ :
        TokenBucketRateLimiter).refill last = ⟨cap, rate, (m : ℚ), last⟩ := by
      apply refill_of_nonpos
      dsimp only
      rw [sub_self, zero_mul]
    simp only [List.replicate_succ, runCount]
    match m with
    | 0 =>
      have ht : ¬(((⟨cap, rate, ((0 : ℕ) : ℚ), last⟩ :
          TokenBucketRateLimiter).refill last).available_tokens ≥ 1) := by
        rw [hre]; dsimp only; norm_num
      rw [allow_request_false _ _ ht, hre]
      rw [ih 0 cap rate last]
      simp
    | (n + 1) =>
      have ht : ((⟨cap, rate, ((n + 1 : ℕ) : ℚ), last⟩ :
          TokenBucketRateLimiter).refill last).available_tokens ≥ 1 := by
        rw [hre]; dsimp only; push_cast
        have : (0 : ℚ) ≤ (n : ℚ) := Nat.cast_nonneg n
        linarith
      rw [allow_request_true _ _ ht, hre]
      have hrec :
          ({ (⟨cap, rate, ((n + 1 : ℕ) : ℚ), last⟩ : TokenBucketRateLimiter)
              with available_tokens := ((n + 1 : ℕ) : ℚ) - 1 } :
            TokenBucketRateLimiter) = ⟨cap, rate, (n : ℚ), last⟩ := by
        push_cast
        ring_nf
      dsimp only
      rw [hrec, ih n cap rate last]
      norm_num
      omega

/-- `_refill` never decreases the token count of a state whose tokens do not
exceed the capacity. -/
theorem tokens_le_refill (s : TokenBucketRateLimiter) (now : ℚ)
    (h : s.available_tokens ≤ s.max_tokens) :
    s.available_tokens ≤ (s.refill now).available_tokens := by
  simp only [refill]
  split_ifs with hr
  · exact le_min h (by linarith)
  · exact le_refl _

/-- On a bucket whose capacity and tokens are not positive, `_refill` leaves
the token count non-positive. -/
theorem refill_tokens_nonpos (s : TokenBucketRateLimiter) (now : ℚ)
    (hc : s.max_tokens ≤ 0) (h0 : s.available_tokens ≤ 0) :
    (s.refill now).available_tokens ≤ 0 := by
  simp only [refill]
  split_ifs with hr
  · exact le_trans (min_le_left _ _) hc
  · exact h0

end TokenBucketRateLimiter

/-- Recording one call outcome preserves the balance between the outcome
counters and the number of recorded latencies. -/
theorem SimStats.record_balance (st : SimStats) (b : Bool) (l : ℚ)
    (h : st.allowed + st.blocked = st.latencies.length) :
    (st.record b l).allowed + (st.record b l).blocked
      = (st.record b l).latencies.length := by
  cases b <;> simp [SimStats.record] <;> omega

/-- Any worker loop preserves the balance between the outcome counters and
the number of recorded latencies. -/
theorem runWorkerIters_balance (ps : List (ℚ × ℚ)) :
    ∀ (ls : TokenBucketRateLimiter) (st : SimStats),
      st.allowed + st.blocked = st.latencies.length →
      (runWorkerIters ls st ps).2.allowed + (runWorkerIters ls st ps).2.blocked
        = (runWorkerIters ls st ps).2.latencies.length := by
  induction ps with
  | nil => intro ls st h; simpa [runWorkerIters] using h
  | cons p ps ih =>
    intro ls st h
    simp only [runWorkerIters, request_worker_iter]
    exact ih _ _ (SimStats.record_balance st _ _ h)

/-- C1: each `allow_request` call, as one atomic operation over a single
clock reading `now`, computes `elapsed = now - lastRefillTime`; when
`refillAmount = elapsed * refillRate > 0` it sets `availableTokens` to
`min(capacity, availableTokens + refillAmount)` and stamps `lastRefillTime`
with that same reading; it then returns `true` and subtracts exactly 1 from
`availableTokens` iff the post-refill count is at least 1, and otherwise
returns `false` leaving the post-refill count intact.  Stated as: the code's
`allow_request` equals the step-by-step transcription of the spec. -/
theorem c1_allow_request_refines_spec (s : TokenBucketRateLimiter) (now : ℚ) :
    s.allow_request now = allowRequestSpec s now := by
  simp only [TokenBucketRateLimiter.allow_request, TokenBucketRateLimiter.refill,
    allowRequestSpec]
  by_cases hr : (now - s.last_refill_timestamp) * s.refill_rate > 0
  · simp only [if_pos hr]
  · simp only [if_neg hr]

/-- C2: for a limiter with positive capacity and non-negative refill rate
satisfying the bucket invariant, every sequence of calls with non-decreasing
clock readings keeps `0 <= availableTokens <= capacity` at every operation
boundary, and a burst of `capacity + 1` calls sharing one clock reading
admits at most `capacity` requests. -/
theorem c2_invariant_and_burst (s : TokenBucketRateLimiter)
    (hcap : 0 < s.max_tokens) (hrate : 0 ≤ s.refill_rate) (hInv : s.Inv) :
    (∀ ts : List ℚ, List.Chain' (fun a b => a ≤ b) ts →
      ((s.runCount ts).2).Inv) ∧
    ∀ (C : ℕ) (now : ℚ), s.max_tokens = (C : ℚ) →
      (s.runCount (List.replicate (C + 1) now)).1 ≤ C := by
  constructor
  · intro ts _
    exact TokenBucketRateLimiter.inv_runCount ts s hInv
  · intro C now hC
    have h := TokenBucketRateLimiter.burst_count_le s now hInv (C + 1)
    rw [hC] at h
    exact_mod_cast h

/-- Witness for C2: the demonstration limiter (capacity 5, rate 5), a burst
of 6 zero-elapsed calls admits at most 5. -/
theorem c2_invariant_and_burst_witness :
    (TokenBucketRateLimiter.init 5 5 0).Inv ∧
    ((TokenBucketRateLimiter.init 5 5 0).runCount (List.replicate 6 2)).1 ≤ 5 :=
  ⟨by decide,
   (c2_invariant_and_burst (TokenBucketRateLimiter.init 5 5 0)
      (by norm_num [TokenBucketRateLimiter.init])
      (by norm_num [TokenBucketRateLimiter.init])
      (by decide)).2 5 2 (by norm_num [TokenBucketRateLimiter.init])⟩

/-- C7: `K` callers against a fresh bucket with capacity `C` and refill rate
0, all with the same clock reading (no elapsed time), are admitted exactly
`min K C` times, hence never more than `C` times.  The lock serializes the
`K` concurrent calls; as all carry the same reading, every interleaving is
the same call sequence, modelled by `runCount` on `K` copies of the creation
reading. -/
theorem c7_concurrent_burst (K C : ℕ) (hK : 1 ≤ K) (t0 : ℚ) :
    ((TokenBucketRateLimiter.init (C : ℚ) 0 t0).runCount
      (List.replicate K t0)).1 = min K C ∧
    ((TokenBucketRateLimiter.init (C : ℚ) 0 t0).runCount
      (List.replicate K t0)).1 ≤ C := by
  have h := TokenBucketRateLimiter.runCount_const_nat K C (C : ℚ) 0 t0
  simp only [TokenBucketRateLimiter.init]
  constructor
  · exact h
  · rw [h]
    exact min_le_right K C

/-- Witness for C7: 7 callers, capacity 5, rate 0: exactly 5 admitted. -/
theorem c7_concurrent_burst_witness :
    ((TokenBucketRateLimiter.init ((5 : ℕ) : ℚ) 0 3).runCount
      (List.replicate 7 3)).1 = min 7 5 ∧
    ((TokenBucketRateLimiter.init ((5 : ℕ) : ℚ) 0 3).runCount
      (List.replicate 7 3)).1 ≤ 5 :=
  c7_concurrent_burst 7 5 (by norm_num) 3

/-- C8: with a non-negative refill rate, no `allow_request` call ever sets
`lastRefillTime` to a smaller value, over a single call and over any call
sequence. -/
theorem c8_last_refill_monotone (s : TokenBucketRateLimiter)
    (h : 0 ≤ s.refill_rate) :
    (∀ now : ℚ, s.last_refill_timestamp
      ≤ (s.allow_request now).2.last_refill_timestamp) ∧
    ∀ ts : List ℚ, s.last_refill_timestamp
      ≤ ((s.runCount ts).2).last_refill_timestamp :=
  ⟨fun now => TokenBucketRateLimiter.last_le_allow s now h,
   fun ts => TokenBucketRateLimiter.last_le_runCount ts s h⟩

/-- Witness for C8 at a concrete state, including a call whose clock reading
lies before the stored timestamp. -/
theorem c8_last_refill_monotone_witness :
    ((⟨5, 2, 3, 1⟩ :
      TokenBucketRateLimiter).last_refill_timestamp
      ≤ (((⟨5, 2, 3, 1⟩ :
        TokenBucketRateLimiter).allow_request 0)).2.last_refill_timestamp) ∧
    ((⟨5, 2, 3, 1⟩ :
      TokenBucketRateLimiter).last_refill_timestamp
      ≤ (((⟨5, 2, 3, 1⟩ :
        TokenBucketRateLimiter).runCount [0, 4])).2.last_refill_timestamp) :=
  ⟨(c8_last_refill_monotone ⟨5, 2, 3, 1⟩ (by norm_num)).1 0,
   (c8_last_refill_monotone ⟨5, 2, 3, 1⟩ (by norm_num)).2 [0, 4]⟩

/-- C10: whenever the computed refill amount `elapsed * refillRate` is not
positive (clock regression, zero elapsed time, or zero rate), `_refill`
leaves the whole state unchanged; consequently refill never decreases the
token count (for a state within capacity), even under a non-monotonic clock,
and with refill rate 0 the refill timestamp keeps its creation value across
every call sequence. -/
theorem c10_refill_frame :
    (∀ (s : TokenBucketRateLimiter) (now : ℚ),
      (now - s.last_refill_timestamp) * s.refill_rate ≤ 0 →
      s.refill now = s) ∧
    (∀ (s : TokenBucketRateLimiter) (now : ℚ),
      s.available_tokens ≤ s.max_tokens →
      s.available_tokens ≤ (s.refill now).available_tokens) ∧
    ∀ (s : TokenBucketRateLimiter) (ts : List ℚ), s.refill_rate = 0 →
      ((s.runCount ts).2).last_refill_timestamp = s.last_refill_timestamp :=
  ⟨fun s now h => TokenBucketRateLimiter.refill_of_nonpos s now h,
   fun s now h => TokenBucketRateLimiter.tokens_le_refill s now h,
   fun s ts h => TokenBucketRateLimiter.last_runCount_rate_zero ts s h⟩

/-- Witness for C10: a clock reading 8 units before the stored timestamp
leaves the state untouched; a within-capacity state never loses tokens to
refill; with rate 0 two calls leave the timestamp at its creation value. -/
theorem c10_refill_frame_witness :
    (⟨5, 1, 3, 10⟩ : TokenBucketRateLimiter).refill 2
      = (⟨5, 1, 3, 10⟩ : TokenBucketRateLimiter) ∧
    (⟨5, 1, 3, 10⟩ : TokenBucketRateLimiter).available_tokens
      ≤ ((⟨5, 1, 3, 10⟩ : TokenBucketRateLimiter).refill 12).available_tokens ∧
    (((⟨5, 0, 3, 7⟩ : TokenBucketRateLimiter).runCount
      [8, 9]).2).last_refill_timestamp = 7 :=
  ⟨c10_refill_frame.1 ⟨5, 1, 3, 10⟩ 2 (by norm_num),
   c10_refill_frame.2.1 ⟨5, 1, 3, 10⟩ 12 (by norm_num),
   c10_refill_frame.2.2 ⟨5, 0, 3, 7⟩ [8, 9] rfl⟩

/-- Counterexample to C3 as stated: constructing with `capacity = 0` does
not fail — the code produces an instance (with `availableTokens = 0`),
whereas the spec-side constructor rejects this configuration. -/
theorem c3_construction_counterexample :
    TokenBucketRateLimiter.init 0 1 0 =
      { max_tokens := 0, refill_rate := 1, available_tokens := 0,
        last_refill_timestamp := 0 } ∧
    initSpec 0 1 0 = none := by
  constructor
  · rfl
  · simp [initSpec]

/-- C3 amended: construction performs no validation; for every capacity,
including `capacity <= 0`, an instance is produced with the given fields
(`availableTokens = capacity`, `lastRefillTime` = creation reading), and a
limiter built with `capacity <= 0` never admits any request. -/
theorem c3_construction_amended (c r t : ℚ) (hc : c ≤ 0) :
    TokenBucketRateLimiter.init c r t =
      { max_tokens := c, refill_rate := r, available_tokens := c,
        last_refill_timestamp := t } ∧
    ∀ now : ℚ, ((TokenBucketRateLimiter.init c r t).allow_request now).1
      = false := by
  refine ⟨rfl, fun now => ?_⟩
  have hle : (((TokenBucketRateLimiter.init c r t).refill now).available_tokens)
      ≤ 0 :=
    TokenBucketRateLimiter.refill_tokens_nonpos _ now hc hc
  rw [TokenBucketRateLimiter.allow_request_false _ _ (by linarith)]

/-- Witness for C3 amended at capacity -1. -/
theorem c3_construction_amended_witness :
    TokenBucketRateLimiter.init (-1) 1 0 =
      { max_tokens := -1, refill_rate := 1, available_tokens := -1,
        last_refill_timestamp := 0 } ∧
    ((TokenBucketRateLimiter.init (-1) 1 0).allow_request 5).1 = false :=
  ⟨(c3_construction_amended (-1) 1 0 (by norm_num)).1,
   (c3_construction_amended (-1) 1 0 (by norm_num)).2 5⟩

/-- C4: on the degenerate aggregate state with zero recorded calls the
latency-statistics computation of `print_results` does not report a
sentinel: it divides by the zero length, i.e. raises (modelled as an
error), while a non-empty collection yields the average and maximum. -/
theorem c4_empty_stats_error :
    printResultsStats [] = Except.error "ZeroDivisionError" ∧
    printResultsStats [3, 7] = Except.ok (5, 7) := by
  constructor
  · rfl
  · norm_num [printResultsStats]

/-- Counterexample to C5 as stated: on a limiter with refill rate 0 (a legal
configuration per the spec), a call at clock reading 10 is rejected and
leaves `lastRefillTime` at 0 — the rejected call does not advance
`lastRefillTime` to the call's clock reading. -/
theorem c5_reject_counterexample :
    ((⟨5, 0, 0, 0⟩ : TokenBucketRateLimiter).allow_request 10).1 = false ∧
    ((⟨5, 0, 0, 0⟩ :
      TokenBucketRateLimiter).allow_request 10).2.last_refill_timestamp = 0 ∧
    (0 : ℚ) ≠ 10 := by
  norm_num [TokenBucketRateLimiter.allow_request, TokenBucketRateLimiter.refill,
    min_def]

/-- C5 amended: a rejected call leaves the state exactly at its post-refill
value (the refill is applied and preserved, nothing else changes); whenever
the computed refill amount is positive the refill advances `lastRefillTime`
to the call's clock reading (when it is not positive, the state — including
`lastRefillTime` — is unchanged); and no accrued refill is forfeited: on a
bucket below 1 token with capacity at least 1, a rejection at the stored
timestamp followed by a call `t` later with `t * refillRate >= 1` yields
exactly one admission over the two calls. -/
theorem c5_reject_refill_preserved :
    (∀ (s : TokenBucketRateLimiter) (now : ℚ),
      (s.allow_request now).1 = false → (s.allow_request now).2 = s.refill now) ∧
    (∀ (s : TokenBucketRateLimiter) (now : ℚ),
      (now - s.last_refill_timestamp) * s.refill_rate > 0 →
      (s.refill now).last_refill_timestamp = now) ∧
    ∀ (s : TokenBucketRateLimiter) (t : ℚ),
      0 ≤ s.available_tokens → s.available_tokens < 1 → 1 ≤ s.max_tokens →
      1 ≤ t * s.refill_rate →
      (s.runCount [s.last_refill_timestamp, s.last_refill_timestamp + t]).1
        = 1 := by
  refine ⟨?_, ?_, ?_⟩
  · intro s now h
    by_cases ht : (s.refill now).available_tokens ≥ 1
    · rw [TokenBucketRateLimiter.allow_request_true s now ht] at h
      simp at h
    · rw [TokenBucketRateLimiter.allow_request_false s now ht]
  · intro s now h
    simp only [TokenBucketRateLimiter.refill]
    rw [if_pos h]
  · intro s t h0 h1 hcap hrt
    have he : s.last_refill_timestamp + t - s.last_refill_timestamp = t := by
      ring
    have hre1 : s.refill s.last_refill_timestamp = s :=
      TokenBucketRateLimiter.refill_of_nonpos s _ (by rw [sub_self, zero_mul])
    have hrej : s.allow_request s.last_refill_timestamp = (false, s) := by
      rw [TokenBucketRateLimiter.allow_request_false s _
        (by rw [hre1]; exact not_le.mpr h1), hre1]
    have hra2 : (s.last_refill_timestamp + t - s.last_refill_timestamp)
        * s.refill_rate > 0 := by
      rw [he]; linarith
    have htok2 : (s.refill (s.last_refill_timestamp + t)).available_tokens
        ≥ 1 := by
      simp only [TokenBucketRateLimiter.refill]
      rw [if_pos hra2]
      dsimp only
      rw [he]
      exact le_min hcap (by linarith)
    simp only [TokenBucketRateLimiter.runCount, hrej,
      TokenBucketRateLimiter.allow_request_true _ _ htok2]
    norm_num

/-- Witness for C5 amended on the demonstration parameters: a drained bucket
(capacity 5, rate 5) rejected at its stored timestamp 0 then called 1/5 s
later is admitted exactly once over the two calls. -/
theorem c5_reject_refill_preserved_witness :
    ((⟨5, 5, 0, 0⟩ : TokenBucketRateLimiter).runCount [0, 0 + 1/5]).1 = 1 :=
  c5_reject_refill_preserved.2.2 ⟨5, 5, 0, 0⟩ (1/5) (by norm_num)
    (by norm_num) (by norm_num) (by norm_num)

/-- Counterexample to C6 as stated: a limiter with capacity 1/2 (accepted
unchecked by the constructor) at 0 tokens, elapsed time 1 and rate 5 has
`t * r = 5 >= 1`, yet the next call is rejected because the refill is
clamped to the capacity 1/2 < 1. -/
theorem c6_refill_accuracy_counterexample :
    ((⟨1/2, 5, 0, 0⟩ : TokenBucketRateLimiter).allow_request (0 + 1)).1
      = false ∧
    (0 : ℚ) ≤ 1 ∧ 1 ≤ (1 : ℚ) * 5 := by
  norm_num [TokenBucketRateLimiter.allow_request, TokenBucketRateLimiter.refill,
    min_def]

/-- C6 amended: for a limiter with capacity at least 1 and `availableTokens
= 0`, after elapsed time `t >= 0` the next call admits iff
`t * refillRate >= 1`. -/
theorem c6_refill_accuracy_amended (s : TokenBucketRateLimiter) (t : ℚ)
    (h0 : s.available_tokens = 0) (hcap : 1 ≤ s.max_tokens) (ht : 0 ≤ t) :
    ((s.allow_request (s.last_refill_timestamp + t)).1 = true) ↔
      1 ≤ t * s.refill_rate := by
  have he : s.last_refill_timestamp + t - s.last_refill_timestamp = t := by
    ring
  constructor
  · intro hadm
    by_contra hlt
    push_neg at hlt
    by_cases hra : (s.last_refill_timestamp + t - s.last_refill_timestamp)
        * s.refill_rate > 0
    · have htok : (s.refill (s.last_refill_timestamp + t)).available_tokens
          < 1 := by
        simp only [TokenBucketRateLimiter.refill]
        rw [if_pos hra]
        dsimp only
        rw [he, h0]
        calc min s.max_tokens (0 + t * s.refill_rate)
            ≤ 0 + t * s.refill_rate := min_le_right _ _
          _ < 1 := by linarith
      rw [TokenBucketRateLimiter.allow_request_false _ _ (not_le.mpr htok)]
        at hadm
      simp at hadm
    · have hre : s.refill (s.last_refill_timestamp + t) = s :=
        TokenBucketRateLimiter.refill_of_nonpos s _ (le_of_not_lt hra)
      have htok : ¬((s.refill (s.last_refill_timestamp + t)).available_tokens
          ≥ 1) := by
        rw [hre, h0]; norm_num
      rw [TokenBucketRateLimiter.allow_request_false _ _ htok] at hadm
      simp at hadm
  · intro h1
    have hra : (s.last_refill_timestamp + t - s.last_refill_timestamp)
        * s.refill_rate > 0 := by
      rw [he]; linarith
    have htok : (s.refill (s.last_refill_timestamp + t)).available_tokens
        ≥ 1 := by
      simp only [TokenBucketRateLimiter.refill]
      rw [if_pos hra]
      dsimp only
      rw [he, h0]
      exact le_min hcap (by linarith)
    rw [TokenBucketRateLimiter.allow_request_true _ _ htok]

/-- Witness for C6 amended, matching the spec's own example: capacity 5,
rate 5, drained to 0, wait 0.21 s → admitted. -/
theorem c6_refill_accuracy_amended_witness :
    ((⟨5, 5, 0, 0⟩ : TokenBucketRateLimiter).allow_request (0 + 21/100)).1
      = true :=
  (c6_refill_accuracy_amended ⟨5, 5, 0, 0⟩ (21/100) rfl (by norm_num)
    (by norm_num)).mpr (by norm_num)

/-- C9: recording a completed call increments exactly one of the two outcome
counters, by exactly 1 (allowed on `true`, blocked on `false`), and appends
exactly one latency entry; hence the balance `allowed + blocked =
number of recorded latencies` holds after every worker-loop iteration. -/
theorem c9_tally (st : SimStats) (b : Bool) (l : ℚ)
    (ls : TokenBucketRateLimiter) (ps : List (ℚ × ℚ))
    (h : st.allowed + st.blocked = st.latencies.length) :
    ((st.record b l).allowed = st.allowed + (if b then 1 else 0)) ∧
    ((st.record b l).blocked = st.blocked + (if b then 0 else 1)) ∧
    ((st.record b l).latencies = st.latencies ++ [l]) ∧
    ((runWorkerIters ls st ps).2.allowed + (runWorkerIters ls st ps).2.blocked
      = (runWorkerIters ls st ps).2.latencies.length) := by
  refine ⟨?_, ?_, ?_, runWorkerIters_balance ps ls st h⟩ <;>
    cases b <;> simp [SimStats.record]

/-- Witness for C9: empty aggregates, one admitted record, and a two-call
worker loop on the demonstration limiter keeps the balance. -/
theorem c9_tally_witness :
    (((⟨0, 0, []⟩ : SimStats).record true 1).allowed
      = 0 + (if true then 1 else 0)) ∧
    (((⟨0, 0, []⟩ : SimStats).record true 1).blocked
      = 0 + (if true then 0 else 1)) ∧
    (((⟨0, 0, []⟩ : SimStats).record true 1).latencies = [] ++ [1]) ∧
    ((runWorkerIters (TokenBucketRateLimiter.init 5 5 0) ⟨0, 0, []⟩
        [(0, 1), (2, 3)]).2.allowed
      + (runWorkerIters (TokenBucketRateLimiter.init 5 5 0) ⟨0, 0, []⟩
        [(0, 1), (2, 3)]).2.blocked
      = (runWorkerIters (TokenBucketRateLimiter.init 5 5 0) ⟨0, 0, []⟩
        [(0, 1), (2, 3)]).2.latencies.length) :=
  c9_tally ⟨0, 0, []⟩ true 1 (TokenBucketRateLimiter.init 5 5 0)
    [(0, 1), (2, 3)] rfl
